import Mathlib

/-!
Shallow embedding of the diff-and-filter engine of gethooks (diff.c) and
verification of its specified properties.

Printing is modelled as emission of structured events: every `printf` block of
the source corresponds to one event constructor, and a function that prints
returns the list of events it emits, in emission order.  Opaque pointers are
modelled as `Nat` identity tokens (0 models NULL), wide strings as lists of
UTF-16 code units, C ints as `Int`, and BYTE flag fields as `Nat` values
below 256.  The ambient global `G->config` read by `is_hook_wanted` is passed
as an explicit `Config` parameter.
-/

/-- UNICODE_STRING as used by diff.c: `Length` is a byte count, `Buffer` the
wide-character contents (code units, the terminating NUL not included).  A
NULL `Buffer` is modelled by wrapping the whole structure in `Option` at the
use site, since the source never reads `Length` when `Buffer` is NULL. -/
structure UNICODE_STRING where
  Length : Nat
  Buffer : List Nat
deriving DecidableEq

/-- portion of SYSTEM_PROCESS_INFORMATION read by diff.c (the `spi` member of
a gui struct): process id and image name. -/
structure SPI where
  UniqueProcessId : Int
  ImageName : Option UNICODE_STRING
deriving DecidableEq

/-- portion of SYSTEM_THREAD_INFORMATION read by diff.c (the `sti` member of
a gui struct): `ClientId.UniqueThread`. -/
structure STI where
  UniqueThread : Int
deriving DecidableEq

/-- struct gui: descriptor of a GUI thread associated with a hook.  `sti` and
`spi` are NULL-able in the source, hence `Option` here. -/
structure Gui where
  pvWin32ThreadInfo : Nat
  pvTeb : Nat
  sti : Option STI
  spi : Option SPI
deriving DecidableEq

/-- portion of the HANDLEENTRY read by diff.c (`hook->entry`). -/
structure HandleEntry where
  bFlags : Nat
  pHead : Nat
deriving DecidableEq

/-- HEAD portion of the kernel HOOK object (`object.head`). -/
structure HookHead where
  h : Nat
  cLockObj : Nat
deriving DecidableEq

/-- kernel HOOK object fields compared by print_diff_hook (`hook->object`). -/
structure HookObject where
  head : HookHead
  rpdesk1 : Nat
  pSelf : Nat
  phkNext : Nat
  iHook : Int
  offPfn : Nat
  flags : Nat
  ihmod : Int
  rpdesk2 : Nat
deriving DecidableEq

/-- struct hook: one hook record of a snapshot.  The field `key` is Modelled
from the spec: it is the stable numeric identity key, used only by the
external `compare_hook` (defined outside diff.c) to order and match records
across snapshots. -/
structure Hook where
  key : Nat
  entry : HandleEntry
  object : HookObject
  owner : Option Gui
  origin : Option Gui
  target : Option Gui
deriving DecidableEq

/-- the LIST_* type tags of a configured include/exclude list. -/
inductive ListType where
  | LIST_INCLUDE_PROG
  | LIST_EXCLUDE_PROG
  | LIST_INCLUDE_HOOK
  | LIST_EXCLUDE_HOOK
deriving DecidableEq

/-- one entry of a configured list: `name` is NULL-able (NULL means the entry
is a program id entry, to be matched by `id`). -/
structure ListItem where
  name : Option (List Nat)
  id : Int
deriving DecidableEq

/-- one configured list (`G->config->proglist` or `G->config->hooklist`).
`init_time` nonzero is modelled as `init_time = true`; the C field `type` is
named `ltype` here because `type` reads poorly as a Lean field name; the
linked list rooted at `head` is modelled as a Lean list. -/
structure ListStore where
  init_time : Bool
  ltype : ListType
  head : List ListItem
deriving DecidableEq

/-- the filter configuration (`G->config`), passed explicitly. -/
structure Config where
  proglist : ListStore
  hooklist : ListStore
deriving DecidableEq

/-- struct desktop_hook_item: the hook list of one desktop.  `desktop` is the
identity token of the pointed-to desktop item (0 models NULL); the desktop's
`pwszDesktopName` is inlined as a field; the hook array with its `hook_count`
is modelled as the list `hook`; `hook_max` is the declared capacity. -/
structure DesktopHookItem where
  desktop : Nat
  pwszDesktopName : List Nat
  hook : List Hook
  hook_max : Nat
deriving DecidableEq

/-- towlower on a UTF-16 code unit, as used by _wcsicmp for the ASCII range. -/
def towlower (c : Nat) : Nat :=
  if 65 ≤ c ∧ c ≤ 90 then c + 32 else c

/-- result of `!_wcsicmp(a, b)`: case-insensitive equality of two wide
strings. -/
def wcsicmp_zero (a b : List Nat) : Bool :=
  a.map towlower == b.map towlower

/-- match_gui_process_name: the gui's process image name (requires `spi` and
`ImageName.Buffer` non-NULL) equals `name` case-insensitively. -/
def match_gui_process_name (g : Gui) (name : List Nat) : Bool :=
  match g.spi with
  | some spi =>
    match spi.ImageName with
    | some img => wcsicmp_zero img.Buffer name
    | none => false
  | none => false

/-- match_gui_process_pid: the gui's process id (requires `spi` non-NULL)
equals `pid`. -/
def match_gui_process_pid (g : Gui) (pid : Int) : Bool :=
  match g.spi with
  | some spi => pid == spi.UniqueProcessId
  | none => false

/-- match_hook_process_name: any of the hook's three non-NULL gui threads has
the given process name. -/
def match_hook_process_name (h : Hook) (name : List Nat) : Bool :=
  (match h.owner with | some g => match_gui_process_name g name | none => false)
  || (match h.origin with | some g => match_gui_process_name g name | none => false)
  || (match h.target with | some g => match_gui_process_name g name | none => false)

/-- match_hook_process_pid: any of the hook's three non-NULL gui threads has
the given process id. -/
def match_hook_process_pid (h : Hook) (pid : Int) : Bool :=
  (match h.owner with | some g => match_gui_process_pid g pid | none => false)
  || (match h.origin with | some g => match_gui_process_pid g pid | none => false)
  || (match h.target with | some g => match_gui_process_pid g pid | none => false)

/-- is_hook_wanted: the user-specified filter.  Each enabled list computes
`yes` = "some entry matches" and returns FALSE early when
`(yes && EXCLUDE) || (!yes && INCLUDE)`; the early returns of the source are
expressed as the two reject conditions below. -/
def is_hook_wanted (cfg : Config) (h : Hook) : Bool :=
  let prog_reject :=
    cfg.proglist.init_time
      && (cfg.proglist.ltype == ListType.LIST_INCLUDE_PROG
          || cfg.proglist.ltype == ListType.LIST_EXCLUDE_PROG)
      && (let yes := cfg.proglist.head.any fun item =>
            match item.name with
            | some nm => match_hook_process_name h nm
            | none => match_hook_process_pid h item.id
          (yes && cfg.proglist.ltype == ListType.LIST_EXCLUDE_PROG)
            || (!yes && cfg.proglist.ltype == ListType.LIST_INCLUDE_PROG))
  let hook_reject :=
    cfg.hooklist.init_time
      && (cfg.hooklist.ltype == ListType.LIST_INCLUDE_HOOK
          || cfg.hooklist.ltype == ListType.LIST_EXCLUDE_HOOK)
      && (let yes := cfg.hooklist.head.any fun item => item.id == h.object.iHook
          (yes && cfg.hooklist.ltype == ListType.LIST_EXCLUDE_HOOK)
            || (!yes && cfg.hooklist.ltype == ListType.LIST_INCLUDE_HOOK))
  !prog_reject && !hook_reject

/-- role label passed as `threadname` to print_diff_gui. -/
inductive Role where
  | owner
  | origin
  | target
deriving DecidableEq

/-- the difftype enum of the reported action. -/
inductive DiffType where
  | HOOK_ADDED
  | HOOK_REMOVED
  | HOOK_MODIFIED
deriving DecidableEq

/-- one printed block of the diff report.  Each constructor stands for one
`printf` group of the source, carrying the data the group prints. -/
inductive Ev where
  | noticeBegin (difftype : DiffType) (deskname : List Nat) (pHead : Nat)
  | noticeEnd
  | entryFlagsChanged
  | flagsSame (v : Nat)
  | flagsRemoved (v : Nat)
  | flagsAdded (v : Nat)
  | guiChanged (role : Role)
  | handleChanged (o n : Nat)
  | lockChanged (o n : Nat)
  | rpdesk1Changed (o n : Nat)
  | pSelfChanged (o n : Nat)
  | phkNextChanged (o n : Nat)
  | iHookChanged (o n : Int)
  | offPfnChanged (o n : Nat)
  | hookFlagsChanged
  | hookFlagsSame (v : Nat)
  | hookFlagsRemoved (v : Nat)
  | hookFlagsAdded (v : Nat)
  | ihmodChanged (o n : Int)
  | rpdesk2Changed (o n : Nat)
deriving DecidableEq

/-- wcsncmp with C semantics: compares at most `n` wide characters, stopping
early at a NUL; the end of a list is read as NUL. -/
def wcsncmp : List Nat → List Nat → Nat → Int
  | _, _, 0 => 0
  | a, b, n + 1 =>
    let x := a.headD 0
    let y := b.headD 0
    if x ≠ y then (x : Int) - (y : Int)
    else if x = 0 then 0
    else wcsncmp a.tail b.tail n

/-- code units of the sentinel image name "<unknown>". -/
def unknownName : List Nat :=
  [60, 117, 110, 107, 110, 111, 119, 110, 62]

/-- the local oldstuff/newstuff aggregate of print_diff_gui. -/
structure GuiStuff where
  pvWin32ThreadInfo : Nat
  pvTeb : Nat
  tid : Int
  pid : Int
  nameLen : Nat
  nameBuf : List Nat
deriving DecidableEq

/-- zero-initialized stuff with the "<unknown>" sentinel image name;
`nameLen` is `wcslen("<unknown>") * sizeof(WCHAR)` = 18 bytes. -/
def emptyStuff : GuiStuff :=
  { pvWin32ThreadInfo := 0, pvTeb := 0, tid := 0, pid := 0
    nameLen := 18, nameBuf := unknownName }

/-- the oldstuff/newstuff construction of print_diff_gui: start from the
sentinel, then copy whichever of the gui's fields are present. -/
def guiStuff : Option Gui → GuiStuff
  | none => emptyStuff
  | some g =>
    let s1 := { emptyStuff with
                  pvWin32ThreadInfo := g.pvWin32ThreadInfo, pvTeb := g.pvTeb }
    let s2 := match g.sti with
      | some sti => { s1 with tid := sti.UniqueThread }
      | none => s1
    match g.spi with
    | some spi =>
      let s3 := { s2 with pid := spi.UniqueProcessId }
      match spi.ImageName with
      | some img => { s3 with nameLen := img.Length, nameBuf := img.Buffer }
      | none => s3
    | none => s2

/-- print_diff_gui: compares the two optional gui structs through their stuff
aggregates and returns whether a difference block is printed.  The source
passes `oldstuff.ImageName.Length` (a byte count) as the wcsncmp character
count, which is modelled verbatim.  The `threadname` parameter only labels
the printed text, so the caller records it in the emitted event instead. -/
def print_diff_gui (a b : Option Gui) : Bool :=
  let o := guiStuff a
  let n := guiStuff b
  !(o.pvWin32ThreadInfo == n.pvWin32ThreadInfo
    && o.pvTeb == n.pvTeb
    && o.tid == n.tid
    && o.pid == n.pid
    && o.nameLen == n.nameLen
    && wcsncmp o.nameBuf n.nameBuf o.nameLen == 0)

/-- three-way decomposition block for the HANDLEENTRY `bFlags` field: each of
the parts same `A&B`, removed `(BYTE)(A&~B)`, added `(BYTE)(B&~A)` is printed
only when nonzero.  For BYTE values (below 256) the truncated complement
`(BYTE)(A&~B)` equals `A &&& (255 ^^^ B)`. -/
def handleentry_flags_diff (A B : Nat) : List Ev :=
  (if A &&& B ≠ 0 then [Ev.flagsSame (A &&& B)] else [])
  ++ (if A &&& (255 ^^^ B) ≠ 0 then [Ev.flagsRemoved (A &&& (255 ^^^ B))] else [])
  ++ (if B &&& (255 ^^^ A) ≠ 0 then [Ev.flagsAdded (B &&& (255 ^^^ A))] else [])

/-- three-way decomposition block for the HOOK object `flags` field, same
shape as `handleentry_flags_diff` but printed through print_HOOK_flags. -/
def hook_flags_diff (A B : Nat) : List Ev :=
  (if A &&& B ≠ 0 then [Ev.hookFlagsSame (A &&& B)] else [])
  ++ (if A &&& (255 ^^^ B) ≠ 0 then [Ev.hookFlagsRemoved (A &&& (255 ^^^ B))] else [])
  ++ (if B &&& (255 ^^^ A) ≠ 0 then [Ev.hookFlagsAdded (B &&& (255 ^^^ A))] else [])

/-- print_diff_hook: field-by-field comparison of two hook structs for the
same HOOK object, in source order.  The `modified` latch of the source is set
(and the HOOK_MODIFIED notice header printed) only inside the `entry.bFlags`
block, and no other block tests it, so the header appears exactly when
`entry.bFlags` changed; print_hook_notice_end is never called.  The three
print_diff_gui calls are written here with the gui pair and role matched up
as the declared parameter order of print_diff_gui requires (the source's
call sites transpose the arguments, which does not type-check in C and can
only mean this pairing). -/
def print_diff_hook (a b : Hook) (deskname : List Nat) : List Ev :=
  (if a.entry.bFlags ≠ b.entry.bFlags then
      [Ev.noticeBegin DiffType.HOOK_MODIFIED deskname b.entry.pHead,
       Ev.entryFlagsChanged]
      ++ handleentry_flags_diff a.entry.bFlags b.entry.bFlags
   else [])
  ++ (if print_diff_gui a.owner b.owner then [Ev.guiChanged Role.owner] else [])
  ++ (if a.object.head.h ≠ b.object.head.h then
        [Ev.handleChanged a.object.head.h b.object.head.h] else [])
  ++ (if a.object.head.cLockObj ≠ b.object.head.cLockObj then
        [Ev.lockChanged a.object.head.cLockObj b.object.head.cLockObj] else [])
  ++ (if print_diff_gui a.origin b.origin then [Ev.guiChanged Role.origin] else [])
  ++ (if a.object.rpdesk1 ≠ b.object.rpdesk1 then
        [Ev.rpdesk1Changed a.object.rpdesk1 b.object.rpdesk1] else [])
  ++ (if a.object.pSelf ≠ b.object.pSelf then
        [Ev.pSelfChanged a.object.pSelf b.object.pSelf] else [])
  ++ (if a.object.phkNext ≠ b.object.phkNext then
        [Ev.phkNextChanged a.object.phkNext b.object.phkNext] else [])
  ++ (if a.object.iHook ≠ b.object.iHook then
        [Ev.iHookChanged a.object.iHook b.object.iHook] else [])
  ++ (if a.object.offPfn ≠ b.object.offPfn then
        [Ev.offPfnChanged a.object.offPfn b.object.offPfn] else [])
  ++ (if a.object.flags ≠ b.object.flags then
        Ev.hookFlagsChanged :: hook_flags_diff a.object.flags b.object.flags
      else [])
  ++ (if a.object.ihmod ≠ b.object.ihmod then
        [Ev.ihmodChanged a.object.ihmod b.object.ihmod] else [])
  ++ (if print_diff_gui a.target b.target then [Ev.guiChanged Role.target] else [])
  ++ (if a.object.rpdesk2 ≠ b.object.rpdesk2 then
        [Ev.rpdesk2Changed a.object.rpdesk2 b.object.rpdesk2] else [])

/-- Modelled from the spec: `compare_hook` is defined outside diff.c; per the
spec, hook records are ordered by their stable numeric identity key, so the
comparator returns the sign of comparing the two keys. -/
def compare_hook (a b : Hook) : Int :=
  if a.key < b.key then -1
  else if b.key < a.key then 1
  else 0

/-- Modelled from the spec: the merge loop of print_diff_desktop_hook_items
gates removed/added notices through a `match()` call that is not defined in
this unit; per the spec its intended semantics is the Filter Evaluator
`is_hook_wanted`. -/
def match_hook (cfg : Config) (h : Hook) : Bool :=
  is_hook_wanted cfg h

/-- one classified emission of the desktop hook-list differ: a removed or
added notice for one record, or one invocation of the hook record comparator
on an equal-key pair. -/
inductive Event where
  | removed (h : Hook)
  | added (h : Hook)
  | compared (a b : Hook)
deriving DecidableEq

/-- identity key an event is about. -/
def eventKey : Event → Nat
  | Event.removed h => h.key
  | Event.added h => h.key
  | Event.compared a _ => a.key

/-- printed form of one `Event`: removed/added notices print a begin/end
header pair; a comparison prints whatever print_diff_hook prints. -/
def renderEvent (deskname : List Nat) : Event → List Ev
  | Event.removed h => [Ev.noticeBegin DiffType.HOOK_REMOVED deskname h.entry.pHead,
                        Ev.noticeEnd]
  | Event.added h => [Ev.noticeBegin DiffType.HOOK_ADDED deskname h.entry.pHead,
                      Ev.noticeEnd]
  | Event.compared a b => print_diff_hook a b deskname

/-- the cursor loops of print_diff_desktop_hook_items: the main merge loop
runs while both lists are nonempty, gating removed/added notices through
`match_hook` and invoking print_diff_hook unconditionally on equal keys; the
two leftover loops then emit removed (resp. added) notices for every
remaining record, without any gating. -/
def diffItems (cfg : Config) : List Hook → List Hook → List Event
  | a :: as, b :: bs =>
    let ret := compare_hook a b
    if ret < 0 then
      (if match_hook cfg a then [Event.removed a] else [])
        ++ diffItems cfg as (b :: bs)
    else if ret > 0 then
      (if match_hook cfg b then [Event.added b] else [])
        ++ diffItems cfg (a :: as) bs
    else
      Event.compared a b :: diffItems cfg as bs
  | as, [] => as.map Event.removed
  | [], bs => bs.map Event.added
termination_by x y => x.length + y.length
decreasing_by
  all_goals simp only [List.length_cons]
  all_goals omega

/-- print_diff_desktop_hook_items: checks the FAIL_IF preconditions (non-NULL
desktops, same desktop, same hook_max) before any comparison — `none` models
the fatal abort — then runs the merge and leftover loops, printing each
emission with desktop name `b->desktop->pwszDesktopName`. -/
def print_diff_desktop_hook_items (cfg : Config) (a b : DesktopHookItem) :
    Option (List Ev) :=
  if a.desktop = 0 then none
  else if b.desktop = 0 then none
  else if a.desktop ≠ b.desktop then none
  else if a.hook_max ≠ b.hook_max then none
  else some ((diffItems cfg a.hook b.hook).flatMap (renderEvent b.pwszDesktopName))

/-- how a session diff run ends: normally, with the MSG_FATAL + exit(1) of a
desktop-count mismatch, or with a FAIL_IF contract abort from inside a
desktop pair. -/
inductive Term where
  | ok
  | fatal
  | contract_abort
deriving DecidableEq

/-- print_diff_desktop_hook_lists: walks both desktop lists in lockstep,
diffing each matched pair; after the loop, a leftover on either side is the
fatal desktop-count mismatch (MSG_FATAL, exit(1)).  The result collects all
output printed before the run ends, paired with how it ends. -/
def print_diff_desktop_hook_lists (cfg : Config) :
    List DesktopHookItem → List DesktopHookItem → List Ev × Term
  | a :: as, b :: bs =>
    match print_diff_desktop_hook_items cfg a b with
    | none => ([], Term.contract_abort)
    | some ev =>
      let r := print_diff_desktop_hook_lists cfg as bs
      (ev ++ r.1, r.2)
  | [], [] => ([], Term.ok)
  | _, _ => ([], Term.fatal)

/-- configuration with both filter lists disabled (no rule enabled). -/
def cfgNone : Config :=
  { proglist := { init_time := false, ltype := ListType.LIST_INCLUDE_PROG, head := [] },
    hooklist := { init_time := false, ltype := ListType.LIST_INCLUDE_HOOK, head := [] } }

/-- gui thread whose process resolved to the given pid, with no image name. -/
def gui0 (pid : Int) : Gui :=
  { pvWin32ThreadInfo := 0, pvTeb := 0, sti := none,
    spi := some { UniqueProcessId := pid, ImageName := none } }

/-- hook record with identity key `k`, owner thread of process `pid`, and
hook-type id `ih`; all other fields zero. -/
def mkHook (k : Nat) (pid : Int) (ih : Int) : Hook :=
  { key := k,
    entry := { bFlags := 0, pHead := k },
    object := { head := { h := 0, cLockObj := 0 }, rpdesk1 := 0, pSelf := 0, phkNext := 0,
                iHook := ih, offPfn := 0, flags := 0, ihmod := 0, rpdesk2 := 0 },
    owner := some (gui0 pid), origin := none, target := none }

/-- configuration "exclude pid=100" (program rule) and "include type=2"
(hook-type rule), as in the spec's filter-composition scenario. -/
def cfg_c2 : Config :=
  { proglist := { init_time := true, ltype := ListType.LIST_EXCLUDE_PROG,
                  head := [{ name := none, id := 100 }] },
    hooklist := { init_time := true, ltype := ListType.LIST_INCLUDE_HOOK,
                  head := [{ name := none, id := 2 }] } }

/-- Specification-side reading of one program-rule entry against one gui
thread: a name entry matches by case-insensitive process name, an id entry by
process id. -/
def gui_matches_item_spec (g : Gui) (item : ListItem) : Bool :=
  match item.name with
  | some nm => match_gui_process_name g nm
  | none => match_gui_process_pid g item.id

/-- Specification-side program-rule match of one entry against a hook record:
logical OR across the three thread contexts owner/origin/target. -/
def hook_matches_item_spec (h : Hook) (item : ListItem) : Bool :=
  (match h.owner with | some g => gui_matches_item_spec g item | none => false)
  || (match h.origin with | some g => gui_matches_item_spec g item | none => false)
  || (match h.target with | some g => gui_matches_item_spec g item | none => false)

/-- Specification-side program rule: disabled rules always pass; an enabled
include rule keeps only matching records, an enabled exclude rule drops
matching records, with "matches" an OR across all list entries. -/
def prog_rule_passes_spec (cfg : Config) (h : Hook) : Bool :=
  if cfg.proglist.init_time
      && (cfg.proglist.ltype == ListType.LIST_INCLUDE_PROG
          || cfg.proglist.ltype == ListType.LIST_EXCLUDE_PROG) then
    let m := cfg.proglist.head.any (hook_matches_item_spec h)
    if cfg.proglist.ltype == ListType.LIST_INCLUDE_PROG then m else !m
  else true

/-- Specification-side hook-type rule: the record matches when its own type
id equals the id of any list entry; include keeps matches, exclude drops
them, a disabled rule always passes. -/
def hook_rule_passes_spec (cfg : Config) (h : Hook) : Bool :=
  if cfg.hooklist.init_time
      && (cfg.hooklist.ltype == ListType.LIST_INCLUDE_HOOK
          || cfg.hooklist.ltype == ListType.LIST_EXCLUDE_HOOK) then
    let m := cfg.hooklist.head.any fun item => item.id == h.object.iHook
    if cfg.hooklist.ltype == ListType.LIST_INCLUDE_HOOK then m else !m
  else true

theorem code_item_eq_spec_item (h : Hook) (item : ListItem) :
    (match item.name with
     | some nm => match_hook_process_name h nm
     | none => match_hook_process_pid h item.id) = hook_matches_item_spec h item := by
  cases hn : item.name <;>
    cases h.owner <;> cases h.origin <;> cases h.target <;>
      simp [match_hook_process_name, match_hook_process_pid, hook_matches_item_spec,
            gui_matches_item_spec, hn]

theorem is_hook_wanted_eq_spec (cfg : Config) (h : Hook) :
    is_hook_wanted cfg h
      = (prog_rule_passes_spec cfg h && hook_rule_passes_spec cfg h) := by
  have hitem : (fun item => match item.name with
      | some nm => match_hook_process_name h nm
      | none => match_hook_process_pid h item.id) = hook_matches_item_spec h :=
    funext fun item => code_item_eq_spec_item h item
  unfold is_hook_wanted prog_rule_passes_spec hook_rule_passes_spec
  rw [hitem]
  cases hpt : cfg.proglist.ltype <;> cases hht : cfg.hooklist.ltype <;>
    cases hpi : cfg.proglist.init_time <;> cases hhi : cfg.hooklist.init_time <;>
    cases hy1 : cfg.proglist.head.any (hook_matches_item_spec h) <;>
    cases hy2 : cfg.hooklist.head.any (fun item => item.id == h.object.iHook) <;>
      simp [hpt, hht, hpi, hhi, hy1, hy2]

/-- C2: is_hook_wanted returns true iff the record passes both enabled rules
conjunctively (disabled rules always pass), with the program rule an OR over
the three thread contexts and all entries and the hook-type rule an OR over
entries on the record's own type id; include keeps matches, exclude drops
them.  In particular, under "exclude pid=100" and "include type=2": a record
with pid 100 and type 2 is not wanted, pid 200 and type 2 is wanted, and
pid 200 and type 3 is not wanted. -/
theorem c2_filter_conjunction :
    (∀ cfg h, is_hook_wanted cfg h
        = (prog_rule_passes_spec cfg h && hook_rule_passes_spec cfg h))
    ∧ is_hook_wanted cfg_c2 (mkHook 1 100 2) = false
    ∧ is_hook_wanted cfg_c2 (mkHook 1 200 2) = true
    ∧ is_hook_wanted cfg_c2 (mkHook 1 200 3) = false :=
  ⟨is_hook_wanted_eq_spec, by decide, by decide, by decide⟩

theorem wcsncmp_self (x : List Nat) (n : Nat) : wcsncmp x x n = 0 := by
  induction n generalizing x with
  | zero => rfl
  | succ n ih =>
    rw [wcsncmp]
    simp [ih]

theorem wcsncmp_eq_zero_iff {a b : List Nat} {n : Nat} (ha0 : 0 ∉ a) (hb0 : 0 ∉ b)
    (hla : a.length ≤ n) (hlb : b.length ≤ n) :
    wcsncmp a b n = 0 ↔ a = b := by
  induction n generalizing a b with
  | zero =>
    have ha : a = [] := List.length_eq_zero.mp (Nat.le_zero.mp hla)
    have hb : b = [] := List.length_eq_zero.mp (Nat.le_zero.mp hlb)
    subst ha; subst hb
    simp [wcsncmp]
  | succ n ih =>
    cases a with
    | nil =>
      cases b with
      | nil => simp [wcsncmp]
      | cons y ys =>
        have hy : y ≠ 0 := fun h => hb0 (h ▸ List.mem_cons_self y ys)
        rw [wcsncmp]
        simp only [List.headD_nil, List.headD_cons]
        rw [if_pos (by omega)]
        constructor
        · intro h; omega
        · intro h; cases h
    | cons x xs =>
      cases b with
      | nil =>
        have hx : x ≠ 0 := fun h => ha0 (h ▸ List.mem_cons_self x xs)
        rw [wcsncmp]
        simp only [List.headD_cons, List.headD_nil]
        rw [if_pos (by omega)]
        constructor
        · intro h; omega
        · intro h; cases h
      | cons y ys =>
        have hx : x ≠ 0 := fun h => ha0 (h ▸ List.mem_cons_self x xs)
        rw [wcsncmp]
        simp only [List.headD_cons, List.tail_cons]
        by_cases hxy : x = y
        · subst hxy
          rw [if_neg (by simp), if_neg hx]
          rw [ih (fun h => ha0 (List.mem_cons_of_mem _ h))
                (fun h => hb0 (List.mem_cons_of_mem _ h))
                (by simpa using Nat.lt_succ_iff.mp (Nat.lt_of_lt_of_le (Nat.lt_succ_of_le le_rfl) (by simpa using hla)))
                (by simpa using Nat.lt_succ_iff.mp (Nat.lt_of_lt_of_le (Nat.lt_succ_of_le le_rfl) (by simpa using hlb)))]
          simp
        · rw [if_pos (by omega)]
          constructor
          · intro h
            exfalso
            apply hxy
            omega
          · intro h
            cases h
            simp at hxy

/-- well-formedness of a stuff aggregate's image name as diff.c receives it:
the byte count is twice the number of code units (sizeof(WCHAR) = 2) and the
units contain no embedded NUL. -/
def StuffWF (s : GuiStuff) : Prop :=
  s.nameLen = 2 * s.nameBuf.length ∧ 0 ∉ s.nameBuf

theorem stuff_eq_iff {o n : GuiStuff} (hwo : StuffWF o) (hwn : StuffWF n) :
    (o.pvWin32ThreadInfo = n.pvWin32ThreadInfo ∧ o.pvTeb = n.pvTeb
      ∧ o.tid = n.tid ∧ o.pid = n.pid ∧ o.nameLen = n.nameLen
      ∧ wcsncmp o.nameBuf n.nameBuf o.nameLen = 0)
    ↔ o = n := by
  obtain ⟨hlo, ho0⟩ := hwo
  obtain ⟨hln, hn0⟩ := hwn
  cases o with
  | mk o1 o2 o3 o4 o5 o6 =>
    cases n with
    | mk n1 n2 n3 n4 n5 n6 =>
      simp only at hlo hln ho0 hn0 ⊢
      constructor
      · rintro ⟨e1, e2, e3, e4, e5, e6⟩
        have hb : o6 = n6 := by
          rw [wcsncmp_eq_zero_iff ho0 hn0 (by omega) (by omega)] at e6
          exact e6
        simp [GuiStuff.mk.injEq, e1, e2, e3, e4, e5, hb]
      · intro h
        injection h with e1 e2 e3 e4 e5 e6
        subst e1; subst e2; subst e3; subst e4; subst e5; subst e6
        exact ⟨rfl, rfl, rfl, rfl, rfl, wcsncmp_self _ _⟩

theorem print_diff_gui_eq_false_iff (a b : Option Gui)
    (hwa : StuffWF (guiStuff a)) (hwb : StuffWF (guiStuff b)) :
    print_diff_gui a b = false ↔ guiStuff a = guiStuff b := by
  unfold print_diff_gui
  simp only [Bool.not_eq_false', Bool.and_eq_true, beq_iff_eq, and_assoc]
  exact stuff_eq_iff hwa hwb

theorem print_diff_gui_self (g : Option Gui) : print_diff_gui g g = false := by
  simp [print_diff_gui, wcsncmp_self]

/-- gui thread whose process resolved with image name "<unknown>", zero pid,
null addresses; its extracted stuff coincides with the absent-context
sentinel. -/
def guiUnknown : Gui :=
  { pvWin32ThreadInfo := 0, pvTeb := 0, sti := none,
    spi := some { UniqueProcessId := 0,
                  ImageName := some { Length := 18, Buffer := unknownName } } }

/-- C7: print_diff_gui reports two optional contexts as equal (returns false,
printing nothing) iff all of thread-local address, per-thread-info address,
thread id, process id, image-name length and image-name bytes of their stuff
aggregates are identical, with an absent context read as the sentinel
(null addresses, zero ids, name "<unknown>"); hence none against a context
carrying exactly the sentinel values compares as no change, while none
against a context with a resolvable (nonzero) process id compares as a
change. -/
theorem c7_gui_compare :
    (∀ a b, StuffWF (guiStuff a) → StuffWF (guiStuff b) →
        (print_diff_gui a b = false ↔ guiStuff a = guiStuff b))
    ∧ print_diff_gui none (some guiUnknown) = false
    ∧ (∀ g : Gui, ∀ spi : SPI, g.spi = some spi → spi.UniqueProcessId ≠ 0 →
        print_diff_gui none (some g) = true) := by
  refine ⟨print_diff_gui_eq_false_iff, by decide, ?_⟩
  intro g spi hspi hpid
  have hpidval : (guiStuff (some g)).pid = spi.UniqueProcessId := by
    simp [guiStuff, hspi]
    cases him : spi.ImageName <;> simp
  by_contra hne
  have hfalse : print_diff_gui none (some g) = false := by
    cases hpd : print_diff_gui none (some g)
    · rfl
    · exact absurd hpd hne
  unfold print_diff_gui at hfalse
  simp only [Bool.not_eq_false', Bool.and_eq_true, beq_iff_eq] at hfalse
  have : (guiStuff none).pid = (guiStuff (some g)).pid := hfalse.1.1.2
  rw [hpidval] at this
  simp [guiStuff, emptyStuff] at this
  exact hpid this.symm

theorem c7_gui_compare_witness :
    (print_diff_gui (some guiUnknown) none = false
      ↔ guiStuff (some guiUnknown) = guiStuff none)
    ∧ print_diff_gui none (some (gui0 5)) = true :=
  ⟨c7_gui_compare.1 (some guiUnknown) none ⟨by decide, by decide⟩ ⟨by decide, by decide⟩,
   c7_gui_compare.2.2 (gui0 5) { UniqueProcessId := 5, ImageName := none } rfl (by decide)⟩

/-- C8: for two hook records with identical field values in every position,
print_diff_hook emits nothing at all — no notice, header, or change event. -/
theorem c8_identical_hooks_empty (a : Hook) (deskname : List Nat) :
    print_diff_hook a a deskname = [] := by
  simp [print_diff_hook, print_diff_gui_self]

/-- hook pair for the modified-header failing input: identical except the
HOOK handle `object.head.h` (0 versus 11), with `entry.bFlags` unchanged. -/
def hook_c6_old : Hook := mkHook 1 0 0

/-- new-snapshot counterpart of `hook_c6_old` with only the handle changed. -/
def hook_c6_new : Hook :=
  { hook_c6_old with
      object := { hook_c6_old.object with
                    head := { hook_c6_old.object.head with h := 11 } } }

/-- C6 (failing-input evaluation): a hook pair differing only in the handle
value produces the handle-change event with no HOOK_MODIFIED notice header
anywhere in the output, because print_diff_hook only emits the header inside
the entry.bFlags block. -/
theorem c6_modified_header_missing :
    print_diff_hook hook_c6_old hook_c6_new [68] = [Ev.handleChanged 0 11]
    ∧ Ev.noticeBegin DiffType.HOOK_MODIFIED [68] hook_c6_new.entry.pHead
        ∉ print_diff_hook hook_c6_old hook_c6_new [68] := by
  refine ⟨by decide, by decide⟩

theorem land_compl_partition {w a b : Nat} (ha : a < 2 ^ w) (hb : b < 2 ^ w) :
    ((a &&& b) ||| ((a &&& ((2 ^ w - 1) ^^^ b)) ||| (b &&& ((2 ^ w - 1) ^^^ a))))
        = a ||| b
    ∧ ((a &&& ((2 ^ w - 1) ^^^ b)) &&& (b &&& ((2 ^ w - 1) ^^^ a))) = 0 := by
  constructor
  · apply Nat.eq_of_testBit_eq
    intro i
    simp only [Nat.testBit_or, Nat.testBit_and, Nat.testBit_xor,
               Nat.testBit_two_pow_sub_one]
    by_cases hi : i < w
    · simp only [hi, decide_True]
      cases a.testBit i <;> cases b.testBit i <;> simp
    · have hai : a.testBit i = false :=
        Nat.testBit_lt_two_pow
          (lt_of_lt_of_le ha (Nat.pow_le_pow_right (by norm_num) (le_of_not_lt hi)))
      have hbi : b.testBit i = false :=
        Nat.testBit_lt_two_pow
          (lt_of_lt_of_le hb (Nat.pow_le_pow_right (by norm_num) (le_of_not_lt hi)))
      simp [hai, hbi]
  · apply Nat.eq_of_testBit_eq
    intro i
    simp only [Nat.testBit_and, Nat.testBit_xor, Nat.testBit_two_pow_sub_one,
               Nat.zero_testBit]
    by_cases hi : i < w
    · simp only [hi, decide_True]
      cases a.testBit i <;> cases b.testBit i <;> simp
    · have hai : a.testBit i = false :=
        Nat.testBit_lt_two_pow
          (lt_of_lt_of_le ha (Nat.pow_le_pow_right (by norm_num) (le_of_not_lt hi)))
      simp [hai]

/-- C9: the three-way flags decomposition same `A&B`, removed `A&~B`, added
`B&~A` (complement taken within the BYTE width) partitions the union exactly,
its removed and added parts are disjoint, and each part's line is emitted by
the flags blocks of print_diff_hook only when that part is nonzero. -/
theorem c9_flags_partition (A B : Nat) (hA : A < 256) (hB : B < 256) :
    ((A &&& B) ||| ((A &&& (255 ^^^ B)) ||| (B &&& (255 ^^^ A)))) = A ||| B
    ∧ ((A &&& (255 ^^^ B)) &&& (B &&& (255 ^^^ A))) = 0
    ∧ (Ev.flagsSame (A &&& B) ∈ handleentry_flags_diff A B ↔ A &&& B ≠ 0)
    ∧ (Ev.flagsRemoved (A &&& (255 ^^^ B)) ∈ handleentry_flags_diff A B
        ↔ A &&& (255 ^^^ B) ≠ 0)
    ∧ (Ev.flagsAdded (B &&& (255 ^^^ A)) ∈ handleentry_flags_diff A B
        ↔ B &&& (255 ^^^ A) ≠ 0)
    ∧ (Ev.hookFlagsSame (A &&& B) ∈ hook_flags_diff A B ↔ A &&& B ≠ 0)
    ∧ (Ev.hookFlagsRemoved (A &&& (255 ^^^ B)) ∈ hook_flags_diff A B
        ↔ A &&& (255 ^^^ B) ≠ 0)
    ∧ (Ev.hookFlagsAdded (B &&& (255 ^^^ A)) ∈ hook_flags_diff A B
        ↔ B &&& (255 ^^^ A) ≠ 0) := by
  have h255 : (255 : Nat) = 2 ^ 8 - 1 := by norm_num
  have hA8 : A < 2 ^ 8 := by norm_num [hA]
  have hB8 : B < 2 ^ 8 := by norm_num [hB]
  obtain ⟨hp, hz⟩ := land_compl_partition hA8 hB8
  refine ⟨by rw [h255]; exact hp, by rw [h255]; exact hz, ?_, ?_, ?_, ?_, ?_, ?_⟩ <;>
    · simp only [handleentry_flags_diff, hook_flags_diff]
      split_ifs <;> simp_all

theorem compare_hook_lt_iff {a b : Hook} : compare_hook a b < 0 ↔ a.key < b.key := by
  unfold compare_hook
  split_ifs with h1 h2 <;> constructor <;> intro h <;> omega

theorem compare_hook_gt_iff {a b : Hook} : compare_hook a b > 0 ↔ b.key < a.key := by
  unfold compare_hook
  split_ifs with h1 h2 <;> constructor <;> intro h <;> omega

theorem compare_hook_eq_keys {a b : Hook} (h1 : ¬ compare_hook a b < 0)
    (h2 : ¬ compare_hook a b > 0) : a.key = b.key := by
  unfold compare_hook at h1 h2
  split_ifs at h1 h2 <;> omega

theorem diffItems_step_lt (cfg : Config) {a b : Hook} (as bs : List Hook)
    (h : a.key < b.key) :
    diffItems cfg (a :: as) (b :: bs)
      = (if is_hook_wanted cfg a then [Event.removed a] else [])
          ++ diffItems cfg as (b :: bs) := by
  have hc : compare_hook a b < 0 := compare_hook_lt_iff.mpr h
  rw [diffItems]
  simp only [match_hook, if_pos hc]

theorem diffItems_step_gt (cfg : Config) {a b : Hook} (as bs : List Hook)
    (h : b.key < a.key) :
    diffItems cfg (a :: as) (b :: bs)
      = (if is_hook_wanted cfg b then [Event.added b] else [])
          ++ diffItems cfg (a :: as) bs := by
  have hc1 : ¬ compare_hook a b < 0 := by
    rw [compare_hook_lt_iff]; omega
  have hc2 : compare_hook a b > 0 := compare_hook_gt_iff.mpr h
  rw [diffItems]
  simp only [match_hook, if_neg hc1, if_pos hc2]

theorem diffItems_step_eq (cfg : Config) {a b : Hook} (as bs : List Hook)
    (h : a.key = b.key) :
    diffItems cfg (a :: as) (b :: bs)
      = Event.compared a b :: diffItems cfg as bs := by
  have hc1 : ¬ compare_hook a b < 0 := by
    rw [compare_hook_lt_iff]; omega
  have hc2 : ¬ compare_hook a b > 0 := by
    rw [compare_hook_gt_iff]; omega
  rw [diffItems]
  simp only [if_neg hc1, if_neg hc2]

theorem diffItems_nil_right (cfg : Config) (as : List Hook) :
    diffItems cfg as [] = as.map Event.removed := by
  cases as <;> simp [diffItems]

theorem diffItems_nil_left (cfg : Config) (bs : List Hook) :
    diffItems cfg [] bs = bs.map Event.added := by
  cases bs <;> simp [diffItems]

theorem diffItems_length (cfg : Config) (old new : List Hook) :
    (diffItems cfg old new).length ≤ old.length + new.length := by
  induction old, new using diffItems.induct cfg with
  | case1 a as b bs ret hret ih =>
    rw [diffItems_step_lt cfg as bs (compare_hook_lt_iff.mp hret)]
    simp only [List.length_append, List.length_cons] at ih ⊢
    split_ifs <;> simp <;> omega
  | case2 a as b bs ret h1 h2 ih =>
    rw [diffItems_step_gt cfg as bs (compare_hook_gt_iff.mp h2)]
    simp only [List.length_append, List.length_cons] at ih ⊢
    split_ifs <;> simp <;> omega
  | case3 a as b bs ret h1 h2 ih =>
    rw [diffItems_step_eq cfg as bs (compare_hook_eq_keys h1 h2)]
    simp only [List.length_cons]
    omega
  | case4 as =>
    rw [diffItems_nil_right]
    simp
  | case5 bs hne =>
    rw [diffItems_nil_left]
    simp

theorem diffItems_provenance (cfg : Config) (old new : List Hook) :
    ∀ e ∈ diffItems cfg old new,
      (∀ h, e = Event.removed h → h ∈ old)
      ∧ (∀ h, e = Event.added h → h ∈ new)
      ∧ (∀ x y, e = Event.compared x y → x ∈ old ∧ y ∈ new ∧ x.key = y.key) := by
  induction old, new using diffItems.induct cfg with
  | case1 a as b bs ret hret ih =>
    intro e he
    rw [diffItems_step_lt cfg as bs (compare_hook_lt_iff.mp hret)] at he
    rcases List.mem_append.mp he with hl | hr
    · have he' : e = Event.removed a := by
        by_cases hw : is_hook_wanted cfg a
        · rw [if_pos hw] at hl; simpa using hl
        · rw [if_neg hw] at hl; simp at hl
      subst he'
      refine ⟨fun h hh => ?_, fun h hh => ?_, fun x y hh => ?_⟩
      · injection hh with hh; subst hh; exact List.mem_cons_self a as
      · cases hh
      · cases hh
    · obtain ⟨pr, pa, pc⟩ := ih e hr
      refine ⟨fun h hh => List.mem_cons_of_mem a (pr h hh), pa, fun x y hh => ?_⟩
      obtain ⟨hx, hy, hxy⟩ := pc x y hh
      exact ⟨List.mem_cons_of_mem a hx, hy, hxy⟩
  | case2 a as b bs ret h1 h2 ih =>
    intro e he
    rw [diffItems_step_gt cfg as bs (compare_hook_gt_iff.mp h2)] at he
    rcases List.mem_append.mp he with hl | hr
    · have he' : e = Event.added b := by
        by_cases hw : is_hook_wanted cfg b
        · rw [if_pos hw] at hl; simpa using hl
        · rw [if_neg hw] at hl; simp at hl
      subst he'
      refine ⟨fun h hh => ?_, fun h hh => ?_, fun x y hh => ?_⟩
      · cases hh
      · injection hh with hh; subst hh; exact List.mem_cons_self b bs
      · cases hh
    · obtain ⟨pr, pa, pc⟩ := ih e hr
      refine ⟨pr, fun h hh => List.mem_cons_of_mem b (pa h hh), fun x y hh => ?_⟩
      obtain ⟨hx, hy, hxy⟩ := pc x y hh
      exact ⟨hx, List.mem_cons_of_mem b hy, hxy⟩
  | case3 a as b bs ret h1 h2 ih =>
    intro e he
    rw [diffItems_step_eq cfg as bs (compare_hook_eq_keys h1 h2)] at he
    rcases List.mem_cons.mp he with he' | hr
    · subst he'
      refine ⟨fun h hh => ?_, fun h hh => ?_, fun x y hh => ?_⟩
      · cases hh
      · cases hh
      · injection hh with hx hy
        subst hx; subst hy
        exact ⟨List.mem_cons_self a as, List.mem_cons_self b bs,
               compare_hook_eq_keys h1 h2⟩
    · obtain ⟨pr, pa, pc⟩ := ih e hr
      refine ⟨fun h hh => List.mem_cons_of_mem a (pr h hh),
              fun h hh => List.mem_cons_of_mem b (pa h hh),
              fun x y hh => ?_⟩
      obtain ⟨hx, hy, hxy⟩ := pc x y hh
      exact ⟨List.mem_cons_of_mem a hx, List.mem_cons_of_mem b hy, hxy⟩
  | case4 as =>
    intro e he
    rw [diffItems_nil_right] at he
    obtain ⟨h, hh, rfl⟩ := List.mem_map.mp he
    refine ⟨fun h' hh' => ?_, fun h' hh' => ?_, fun x y hh' => ?_⟩
    · injection hh' with hh'; subst hh'; exact hh
    · cases hh'
    · cases hh'
  | case5 bs hne =>
    intro e he
    rw [diffItems_nil_left] at he
    obtain ⟨h, hh, rfl⟩ := List.mem_map.mp he
    refine ⟨fun h' hh' => ?_, fun h' hh' => ?_, fun x y hh' => ?_⟩
    · cases hh'
    · injection hh' with hh'; subst hh'; exact hh
    · cases hh'

theorem diffItems_removed_mem (cfg : Config) (old new : List Hook) :
    ∀ h, h ∈ old → h.key ∉ new.map Hook.key → is_hook_wanted cfg h = true →
      Event.removed h ∈ diffItems cfg old new := by
  induction old, new using diffItems.induct cfg with
  | case1 a as b bs ret hret ih =>
    intro h hmem hkey hw
    rw [diffItems_step_lt cfg as bs (compare_hook_lt_iff.mp hret)]
    rcases List.mem_cons.mp hmem with rfl | hmem'
    · exact List.mem_append_left _ (by rw [if_pos hw]; exact List.mem_singleton.mpr rfl)
    · exact List.mem_append_right _ (ih h hmem' hkey hw)
  | case2 a as b bs ret h1 h2 ih =>
    intro h hmem hkey hw
    rw [diffItems_step_gt cfg as bs (compare_hook_gt_iff.mp h2)]
    refine List.mem_append_right _ (ih h hmem (fun hx => hkey ?_) hw)
    simp only [List.map_cons, List.mem_cons]
    exact Or.inr hx
  | case3 a as b bs ret h1 h2 ih =>
    intro h hmem hkey hw
    have hab : a.key = b.key := compare_hook_eq_keys h1 h2
    rw [diffItems_step_eq cfg as bs hab]
    rcases List.mem_cons.mp hmem with rfl | hmem'
    · exact absurd (by simp [← hab]) hkey
    · refine List.mem_cons_of_mem _ (ih h hmem' (fun hx => hkey ?_) hw)
      simp only [List.map_cons, List.mem_cons]
      exact Or.inr hx
  | case4 as =>
    intro h hmem hkey hw
    rw [diffItems_nil_right]
    exact List.mem_map_of_mem Event.removed hmem
  | case5 bs hne =>
    intro h hmem hkey hw
    cases hmem

theorem diffItems_added_mem (cfg : Config) (old new : List Hook) :
    ∀ h, h ∈ new → h.key ∉ old.map Hook.key → is_hook_wanted cfg h = true →
      Event.added h ∈ diffItems cfg old new := by
  induction old, new using diffItems.induct cfg with
  | case1 a as b bs ret hret ih =>
    intro h hmem hkey hw
    rw [diffItems_step_lt cfg as bs (compare_hook_lt_iff.mp hret)]
    refine List.mem_append_right _ (ih h hmem (fun hx => hkey ?_) hw)
    simp only [List.map_cons, List.mem_cons]
    exact Or.inr hx
  | case2 a as b bs ret h1 h2 ih =>
    intro h hmem hkey hw
    rw [diffItems_step_gt cfg as bs (compare_hook_gt_iff.mp h2)]
    rcases List.mem_cons.mp hmem with rfl | hmem'
    · exact List.mem_append_left _ (by rw [if_pos hw]; exact List.mem_singleton.mpr rfl)
    · exact List.mem_append_right _ (ih h hmem' hkey hw)
  | case3 a as b bs ret h1 h2 ih =>
    intro h hmem hkey hw
    have hab : a.key = b.key := compare_hook_eq_keys h1 h2
    rw [diffItems_step_eq cfg as bs hab]
    rcases List.mem_cons.mp hmem with rfl | hmem'
    · exact absurd (by simp [hab]) hkey
    · refine List.mem_cons_of_mem _ (ih h hmem' (fun hx => hkey ?_) hw)
      simp only [List.map_cons, List.mem_cons]
      exact Or.inr hx
  | case4 as =>
    intro h hmem hkey hw
    cases hmem
  | case5 bs hne =>
    intro h hmem hkey hw
    rw [diffItems_nil_left]
    exact List.mem_map_of_mem Event.added hmem

theorem diffItems_compared_mem (cfg : Config) (old new : List Hook)
    (hold : List.Pairwise (fun x y : Hook => x.key < y.key) old)
    (hnew : List.Pairwise (fun x y : Hook => x.key < y.key) new) :
    ∀ x y, x ∈ old → y ∈ new → x.key = y.key →
      Event.compared x y ∈ diffItems cfg old new := by
  induction old, new using diffItems.induct cfg with
  | case1 a as b bs ret hret ih =>
    intro x y hx hy hxy
    have hab : a.key < b.key := compare_hook_lt_iff.mp hret
    rw [diffItems_step_lt cfg as bs hab]
    have hby : b.key ≤ y.key := by
      rcases List.mem_cons.mp hy with rfl | hy'
      · exact le_refl _
      · exact le_of_lt (List.rel_of_pairwise_cons hnew hy')
    rcases List.mem_cons.mp hx with rfl | hx'
    · omega
    · exact List.mem_append_right _ (ih hold.of_cons hnew x y hx' hy hxy)
  | case2 a as b bs ret h1 h2 ih =>
    intro x y hx hy hxy
    have hba : b.key < a.key := compare_hook_gt_iff.mp h2
    rw [diffItems_step_gt cfg as bs hba]
    have hax : a.key ≤ x.key := by
      rcases List.mem_cons.mp hx with rfl | hx'
      · exact le_refl _
      · exact le_of_lt (List.rel_of_pairwise_cons hold hx')
    rcases List.mem_cons.mp hy with rfl | hy'
    · omega
    · exact List.mem_append_right _ (ih hold hnew.of_cons x y hx hy' hxy)
  | case3 a as b bs ret h1 h2 ih =>
    intro x y hx hy hxy
    have hab : a.key = b.key := compare_hook_eq_keys h1 h2
    rw [diffItems_step_eq cfg as bs hab]
    rcases List.mem_cons.mp hx with rfl | hx'
    · rcases List.mem_cons.mp hy with rfl | hy'
      · exact List.mem_cons_self _ _
      · exact absurd hxy (by have := List.rel_of_pairwise_cons hnew hy'; omega)
    · rcases List.mem_cons.mp hy with rfl | hy'
      · exact absurd hxy (by have := List.rel_of_pairwise_cons hold hx'; omega)
      · exact List.mem_cons_of_mem _ (ih hold.of_cons hnew.of_cons x y hx' hy' hxy)
  | case4 as =>
    intro x y hx hy hxy
    cases hy
  | case5 bs hne =>
    intro x y hx hy hxy
    cases hx

/-- C1: for two per-desktop hook lists sorted strictly ascending by identity
key, the merge loop of print_diff_desktop_hook_items classifies every key
present only in the old list as Removed, every key present only in the new
list as Added (each emitted when the record is wanted), and every key present
in both as one (possibly empty) comparison through the Hook Record Comparator;
any emitted event whose key is absent from one side is of the corresponding
one-sided classification, and the number of emitted events is at most
`old.length + new.length`. -/
theorem c1_merge_join (cfg : Config) (old new : List Hook)
    (hold : List.Pairwise (fun x y : Hook => x.key < y.key) old)
    (hnew : List.Pairwise (fun x y : Hook => x.key < y.key) new) :
    (diffItems cfg old new).length ≤ old.length + new.length
    ∧ (∀ h, h ∈ old → h.key ∉ new.map Hook.key → is_hook_wanted cfg h = true →
        Event.removed h ∈ diffItems cfg old new)
    ∧ (∀ h, h ∈ new → h.key ∉ old.map Hook.key → is_hook_wanted cfg h = true →
        Event.added h ∈ diffItems cfg old new)
    ∧ (∀ x y, x ∈ old → y ∈ new → x.key = y.key →
        Event.compared x y ∈ diffItems cfg old new)
    ∧ (∀ e, e ∈ diffItems cfg old new → eventKey e ∉ new.map Hook.key →
        ∃ h, e = Event.removed h ∧ h ∈ old)
    ∧ (∀ e, e ∈ diffItems cfg old new → eventKey e ∉ old.map Hook.key →
        ∃ h, e = Event.added h ∧ h ∈ new) := by
  refine ⟨diffItems_length cfg old new,
          diffItems_removed_mem cfg old new,
          diffItems_added_mem cfg old new,
          diffItems_compared_mem cfg old new hold hnew,
          ?_, ?_⟩
  · intro e he hk
    obtain ⟨pr, pa, pc⟩ := diffItems_provenance cfg old new e he
    cases e with
    | removed h => exact ⟨h, rfl, pr h rfl⟩
    | added h =>
      exact absurd (List.mem_map_of_mem Hook.key (pa h rfl)) hk
    | compared x y =>
      obtain ⟨hx, hy, hxy⟩ := pc x y rfl
      refine absurd ?_ hk
      simpa [eventKey, hxy] using List.mem_map_of_mem Hook.key hy
  · intro e he hk
    obtain ⟨pr, pa, pc⟩ := diffItems_provenance cfg old new e he
    cases e with
    | removed h =>
      exact absurd (List.mem_map_of_mem Hook.key (pr h rfl)) hk
    | added h => exact ⟨h, rfl, pa h rfl⟩
    | compared x y =>
      obtain ⟨hx, hy, hxy⟩ := pc x y rfl
      exact absurd (List.mem_map_of_mem Hook.key hx) hk

theorem c1_merge_join_witness :
    Event.removed (mkHook 3 0 0)
        ∈ diffItems cfgNone [mkHook 1 0 0, mkHook 3 0 0, mkHook 5 0 0]
            [mkHook 1 0 0, mkHook 4 0 0, mkHook 5 0 0]
    ∧ Event.added (mkHook 4 0 0)
        ∈ diffItems cfgNone [mkHook 1 0 0, mkHook 3 0 0, mkHook 5 0 0]
            [mkHook 1 0 0, mkHook 4 0 0, mkHook 5 0 0]
    ∧ Event.compared (mkHook 1 0 0) (mkHook 1 0 0)
        ∈ diffItems cfgNone [mkHook 1 0 0, mkHook 3 0 0, mkHook 5 0 0]
            [mkHook 1 0 0, mkHook 4 0 0, mkHook 5 0 0]
    ∧ (diffItems cfgNone [mkHook 1 0 0, mkHook 3 0 0, mkHook 5 0 0]
        [mkHook 1 0 0, mkHook 4 0 0, mkHook 5 0 0]).length ≤ 6 := by
  obtain ⟨hlen, hrem, hadd, hcmp, hro, hao⟩ :=
    c1_merge_join cfgNone [mkHook 1 0 0, mkHook 3 0 0, mkHook 5 0 0]
      [mkHook 1 0 0, mkHook 4 0 0, mkHook 5 0 0] (by decide) (by decide)
  exact ⟨hrem (mkHook 3 0 0) (by decide) (by decide) (by decide),
         hadd (mkHook 4 0 0) (by decide) (by decide) (by decide),
         hcmp (mkHook 1 0 0) (mkHook 1 0 0) (by decide) (by decide) rfl,
         hlen⟩

/-- C4 (failing-input evaluation): after one cursor exhausts, the leftover
loops classify the remaining records wholesale (removed on the old side,
added on the new side) but emit each notice unconditionally: a leftover
record rejected by the filter still produces its notice. -/
theorem c4_leftover_not_gated :
    diffItems cfg_c2 [mkHook 1 100 2] [] = [Event.removed (mkHook 1 100 2)]
    ∧ diffItems cfg_c2 [] [mkHook 1 100 2] = [Event.added (mkHook 1 100 2)]
    ∧ is_hook_wanted cfg_c2 (mkHook 1 100 2) = false := by
  refine ⟨?_, ?_, by decide⟩
  · rw [diffItems_nil_right]; rfl
  · rw [diffItems_nil_left]; rfl

/-- C5: in the main merge loop, when the current old key is smaller the
Removed notice is emitted exactly when the old record is wanted and only the
old cursor advances; when the current new key is smaller the Added notice is
emitted exactly when the new record is wanted and only the new cursor
advances. -/
theorem c5_main_loop_gating (cfg : Config) (a b : Hook) (as bs : List Hook) :
    (a.key < b.key →
      diffItems cfg (a :: as) (b :: bs)
        = (if is_hook_wanted cfg a then [Event.removed a] else [])
            ++ diffItems cfg as (b :: bs))
    ∧ (b.key < a.key →
      diffItems cfg (a :: as) (b :: bs)
        = (if is_hook_wanted cfg b then [Event.added b] else [])
            ++ diffItems cfg (a :: as) bs) :=
  ⟨fun h => diffItems_step_lt cfg as bs h, fun h => diffItems_step_gt cfg as bs h⟩

theorem c5_main_loop_gating_witness :
    diffItems cfg_c2 [mkHook 1 100 2] [mkHook 2 200 2]
      = (if is_hook_wanted cfg_c2 (mkHook 1 100 2)
          then [Event.removed (mkHook 1 100 2)] else [])
          ++ diffItems cfg_c2 [] [mkHook 2 200 2] :=
  (c5_main_loop_gating cfg_c2 (mkHook 1 100 2) (mkHook 2 200 2) [] []).1 (by decide)

/-- desktop hook list over desktop token 1 holding one hook record. -/
def desk1 : DesktopHookItem :=
  { desktop := 1, pwszDesktopName := [68], hook := [mkHook 1 0 0], hook_max := 4 }

/-- the same desktop as `desk1` with an empty hook list (new snapshot). -/
def desk1b : DesktopHookItem := { desk1 with hook := [] }

/-- the same desktop as `desk1` with a different declared capacity. -/
def desk1cap5 : DesktopHookItem := { desk1 with hook_max := 5 }

/-- empty desktop hook list over desktop token 2. -/
def desk2 : DesktopHookItem :=
  { desktop := 2, pwszDesktopName := [69], hook := [], hook_max := 4 }

/-- empty desktop hook list over desktop token 3, present only in the new
snapshot of the topology-mismatch scenario. -/
def desk3 : DesktopHookItem :=
  { desktop := 3, pwszDesktopName := [70], hook := [], hook_max := 4 }

/-- C10: print_diff_desktop_hook_items requires equal declared capacities in
addition to identical (non-NULL) desktop identity; a capacity mismatch, or a
desktop mismatch, aborts fatally before any comparison, producing no
events. -/
theorem c10_hook_max_precondition (cfg : Config) (a b : DesktopHookItem) :
    (a.hook_max ≠ b.hook_max → print_diff_desktop_hook_items cfg a b = none)
    ∧ (a.desktop ≠ b.desktop → print_diff_desktop_hook_items cfg a b = none) := by
  unfold print_diff_desktop_hook_items
  constructor <;> intro hne <;> split_ifs <;> simp_all

theorem c10_hook_max_precondition_witness :
    print_diff_desktop_hook_items cfgNone desk1 desk1cap5 = none :=
  (c10_hook_max_precondition cfgNone desk1 desk1cap5).1 (by decide)

theorem session_prefix (cfg : Config) (l1 : List DesktopHookItem) :
    ∀ l2 : List DesktopHookItem,
      (∀ p ∈ l1.zip l2, (print_diff_desktop_hook_items cfg p.1 p.2).isSome = true) →
      ((print_diff_desktop_hook_lists cfg l1 l2).2 = Term.fatal
          ↔ l1.length ≠ l2.length)
      ∧ (print_diff_desktop_hook_lists cfg l1 l2).1
          = (print_diff_desktop_hook_lists cfg
              (l1.take (min l1.length l2.length))
              (l2.take (min l1.length l2.length))).1 := by
  induction l1 with
  | nil =>
    intro l2 hc
    cases l2 with
    | nil => simp [print_diff_desktop_hook_lists]
    | cons b bs => simp [print_diff_desktop_hook_lists]
  | cons a as ih =>
    intro l2 hc
    cases l2 with
    | nil => simp [print_diff_desktop_hook_lists]
    | cons b bs =>
      have hab : (print_diff_desktop_hook_items cfg a b).isSome = true :=
        hc (a, b) (by simp)
      obtain ⟨ev, hev⟩ := Option.isSome_iff_exists.mp hab
      have hc' : ∀ p ∈ as.zip bs,
          (print_diff_desktop_hook_items cfg p.1 p.2).isSome = true :=
        fun p hp => hc p (by simp [hp])
      obtain ⟨ih1, ih2⟩ := ih bs hc'
      constructor
      · rw [print_diff_desktop_hook_lists, hev]
        simpa using ih1
      · rw [print_diff_desktop_hook_lists, hev]
        simp only [List.length_cons, Nat.succ_min_succ, List.take_succ_cons]
        rw [print_diff_desktop_hook_lists, hev]
        simpa using ih2

/-- C3 as stated is false on the code: with desktop lists of lengths 2 and 3
whose first pair differs, the session differ prints change events for the
matched prefix before terminating fatally. -/
theorem c3_counterexample :
    (print_diff_desktop_hook_lists cfgNone [desk1, desk2] [desk1b, desk2, desk3]).2
        = Term.fatal
    ∧ (print_diff_desktop_hook_lists cfgNone [desk1, desk2] [desk1b, desk2, desk3]).1
        ≠ [] := by
  constructor <;>
    simp [print_diff_desktop_hook_lists, print_diff_desktop_hook_items,
          desk1, desk1b, desk2, desk3, diffItems, renderEvent]

/-- C3 (amended): when every matched desktop pair satisfies the item-level
preconditions, the session differ ends with the fatal diagnostic (exit 1)
exactly when the two desktop sequences have different lengths, and every
event it prints before terminating comes from the matched prefix of desktop
pairs; nothing is printed for the unmatched tail. -/
theorem c3_topology_mismatch (cfg : Config) (l1 l2 : List DesktopHookItem)
    (hc : ∀ p ∈ l1.zip l2, (print_diff_desktop_hook_items cfg p.1 p.2).isSome = true) :
    ((print_diff_desktop_hook_lists cfg l1 l2).2 = Term.fatal
        ↔ l1.length ≠ l2.length)
    ∧ (print_diff_desktop_hook_lists cfg l1 l2).1
        = (print_diff_desktop_hook_lists cfg
            (l1.take (min l1.length l2.length))
            (l2.take (min l1.length l2.length))).1 :=
  session_prefix cfg l1 l2 hc

theorem c3_topology_mismatch_witness :
    ((print_diff_desktop_hook_lists cfgNone [desk2] [desk2, desk3]).2 = Term.fatal
        ↔ ([desk2] : List DesktopHookItem).length
            ≠ ([desk2, desk3] : List DesktopHookItem).length)
    ∧ (print_diff_desktop_hook_lists cfgNone [desk2] [desk2, desk3]).1
        = (print_diff_desktop_hook_lists cfgNone
            (([desk2] : List DesktopHookItem).take
              (min ([desk2] : List DesktopHookItem).length
                ([desk2, desk3] : List DesktopHookItem).length))
            (([desk2, desk3] : List DesktopHookItem).take
              (min ([desk2] : List DesktopHookItem).length
                ([desk2, desk3] : List DesktopHookItem).length))).1 :=
  c3_topology_mismatch cfgNone [desk2] [desk2, desk3] (by
    intro p hp
    simp only [List.zip_cons_cons, List.zip_nil_left, List.mem_singleton] at hp
    subst hp
    simp [print_diff_desktop_hook_items, desk2, desk3])

theorem c9_flags_partition_witness :
    (5 : Nat) < 256 ∧ (3 : Nat) < 256
    ∧ ((5 &&& 3) ||| ((5 &&& (255 ^^^ 3)) ||| (3 &&& (255 ^^^ 5)))) = (5 ||| 3)
    ∧ (Ev.flagsSame (5 &&& 3) ∈ handleentry_flags_diff 5 3 ↔ (5 &&& 3) ≠ 0) :=
  ⟨by decide, by decide, (c9_flags_partition 5 3 (by decide) (by decide)).1,
   (c9_flags_partition 5 3 (by decide) (by decide)).2.2.1⟩
